import Mathlib

/-
Verification of the natural-language specification of wxsd-sales/meeting-scripts
against a shallow embedding of the two Python scripts
(src/webex_reports.py and src/create_meeting.py).

HTTP transport, the standard-library zip parser and the wall clock are external
to the repository; they appear as explicit parameters of the embedded
functions (a response is a status code plus a parsed body, the zip parser is a
parsed-archive argument, the clock is a calendar-date argument).  Everything
the scripts themselves compute is translated directly from the source.
-/

set_option autoImplicit false

namespace Webex

/-- A JSON object as the scripts read it: an association list from string keys
to string values, with the first binding of a key winning (Python dicts have
unique keys, so first-match lookup agrees with dict lookup). -/
abbrev Dict := List (String × String)

/-- Embedding of Python `d.get(k)`: the value at key `k`, if present. -/
def dictGet (d : Dict) (k : String) : Option String :=
  (d.find? (fun p => p.1 = k)).map (fun p => p.2)

/-- Embedding of Python `d.get(k, defv)`: the value at key `k`, or `defv`. -/
def dictGetD (d : Dict) (k defv : String) : String :=
  match dictGet d k with
  | some v => v
  | none => defv

/-- An HTTP response as the scripts consume it: a status code and a parsed
JSON-object body.  `requests.Response.raise_for_status` raises exactly when
the status code is 400 or above. -/
structure HttpResponse where
  status : Nat
  body : Dict
deriving DecidableEq

/-- Outcome of `get_access_token` (src/webex_reports.py lines 45-80 and the
character-for-character identical copy in src/create_meeting.py lines 49-83):
either the bearer token string is returned, or the process terminates via
`sys.exit` with the given status code. -/
inductive AuthResult where
  | token (t : String)
  | exit (code : Nat)
deriving DecidableEq

/-- Embedding of `get_access_token` from src/webex_reports.py lines 45-80
(and src/create_meeting.py lines 49-83).  `raise_for_status` on a status of
400 or above raises `RequestException`, which the handler turns into
`sys.exit(1)`; otherwise the token is read with `.get("access_token")`, and a
missing or falsy (empty) token is `sys.exit(1)`; otherwise the token is
returned. -/
def get_access_token (resp : HttpResponse) : AuthResult :=
  if 400 ≤ resp.status then .exit 1
  else
    match dictGet resp.body "access_token" with
    | none => .exit 1
    | some t => if t = "" then .exit 1 else .token t

/-- The calls a script makes after its authentication call, given the
authentication response: both `main` functions call `get_access_token` first,
and `sys.exit` inside it (a `SystemExit`, not caught by the top-level
`except Exception` handler) prevents every later call.  `laterCalls` stands
for whatever requests the rest of the script would issue. -/
def calls_after_auth (resp : HttpResponse) (laterCalls : List String) : List String :=
  match get_access_token resp with
  | .exit _ => []
  | .token _ => laterCalls

/-- Outcome of `get_report_details` (src/webex_reports.py lines 217-242):
either the first element of the response body's items list is returned, or
the process terminates via `sys.exit` with the given status code. -/
inductive DetailsResult where
  | report (r : Dict)
  | exit (code : Nat)
deriving DecidableEq

/-- Embedding of `get_report_details` from src/webex_reports.py lines 217-242.
The body is its parsed `items` field: `none` models an absent field (the code
reads `data.get("items", [])`).  A status of 400 or above raises and becomes
`sys.exit(1)`; an empty items list prints a diagnostic and is `sys.exit(1)`;
otherwise `items[0]` is returned. -/
def get_report_details (status : Nat) (items : Option (List Dict)) : DetailsResult :=
  if 400 ≤ status then .exit 1
  else
    match items.getD [] with
    | [] => .exit 1
    | r :: _ => .report r

/-- Embedding of Python `str.lower()`: lower-case each character (the
statuses the API returns are ASCII, where the two functions agree). -/
def strLower (s : String) : String := String.mk (s.data.map Char.toLower)

/-- Outcome of `poll_report_until_ready` (src/webex_reports.py lines 265-296):
the report whose status was done, a `sys.exit(1)` on a failed status, or a
`sys.exit(1)` after the timeout diagnostic naming the elapsed bound in
seconds. -/
inductive PollResult where
  | done (report : Dict)
  | failedExit
  | timeoutExit (elapsedBound : Nat)
deriving DecidableEq

/-- The loop body of `poll_report_until_ready`, recursing on the number of
remaining iterations of `while attempt < max_attempts`.  `fetch n` is the
report returned by the n-th call to `get_report_details` (the first call is
`fetch 1`, matching `attempt += 1` before the call).  The result is paired
with the number of fetch calls made and the number of sleeps performed;
`bound` is the elapsed bound printed by the timeout diagnostic. -/
def pollGo (fetch : Nat → Dict) (bound attempt : Nat) : Nat → PollResult × Nat × Nat
  | 0 => (.timeoutExit bound, 0, 0)
  | remaining + 1 =>
      let a := attempt + 1
      let report := fetch a
      let status := strLower (dictGetD report "status" "")
      if status = "done" then (.done report, 1, 0)
      else if status = "failed" then (.failedExit, 1, 0)
      else
        let rest := pollGo fetch bound a remaining
        (rest.1, rest.2.1 + 1, rest.2.2 + 1)

/-- Embedding of `poll_report_until_ready` from src/webex_reports.py lines
265-296, with the per-call fetch results abstracted as `fetch`.  `attempt`
starts at 0; on falling out of the loop the timeout diagnostic names
`max_attempts * poll_interval` seconds. -/
def poll_report_until_ready (fetch : Nat → Dict) (poll_interval max_attempts : Nat) :
    PollResult × Nat × Nat :=
  pollGo fetch (max_attempts * poll_interval) 0 max_attempts

/-- One entry of a zip archive as the standard-library parser presents it to
the script: a member name (from `namelist`) and the uncompressed bytes that
`read` would return for it. -/
structure ZipEntry where
  name : String
  data : List Nat
deriving DecidableEq

/-- Embedding of Python `str.endswith`: the second string's characters are a
suffix of the first string's characters. -/
def strEndsWith (s suffix : String) : Bool := suffix.data.isSuffixOf s.data

/-- Embedding of `zipfile.ZipFile.read` applied to a name taken from
`namelist`: the info directory maps a name to its last occurrence in the
archive, so a duplicated name reads the later entry. -/
def zipRead (entries : List ZipEntry) (n : String) : Option (List Nat) :=
  (entries.reverse.find? (fun e => e.name = n)).map (fun e => e.data)

/-- Outcome of `download_report` (src/webex_reports.py lines 299-357) past a
successful HTTP fetch: either a file of the given name was written with
exactly the given bytes, or the process terminated via `sys.exit(1)` after
printing the given diagnostic, writing no file. -/
inductive DownloadOutcome where
  | saved (filename : String) (contents : List Nat)
  | fatal (msg : String)
deriving DecidableEq

/-- The zip local-file-header signature the script compares against:
`content[:4] == b'PK\x03\x04'`. -/
def ZIP_SIG : List Nat := [0x50, 0x4B, 0x03, 0x04]

/-- Embedding of `download_report` from src/webex_reports.py lines 299-357,
from the downloaded `content` bytes onward.  `archive` is the outcome of the
standard-library zip parser on `content`: `none` models `zipfile.BadZipFile`
(caught and turned into `sys.exit(1)`), `some entries` a parsed archive.
`timestamp` is the `strftime` value used to generate a filename when none is
supplied.  In the zip branch the first `namelist` member whose name ends in
.csv is read and written; with no such member the script exits fatally.  In
the non-zip branch the raw bytes are written verbatim. -/
def download_report (content : List Nat) (archive : Option (List ZipEntry))
    (output_filename : Option String) (timestamp : String) : DownloadOutcome :=
  let generated := "webex_report_" ++ timestamp ++ ".csv"
  if content.take 4 = ZIP_SIG then
    match archive with
    | none => .fatal "ERROR: Failed to extract ZIP file"
    | some entries =>
      match (entries.map (fun e => e.name)).find? (fun n => strEndsWith n ".csv") with
      | some csvName =>
          match zipRead entries csvName with
          | some csvContent => .saved (output_filename.getD generated) csvContent
          | none => .fatal "unreachable: namelist member not readable"
      | none => .fatal "ERROR: No CSV file found in ZIP archive"
  else
    .saved (output_filename.getD generated) content

/-- A report template as the script reads it: the fields accessed by
`display_templates_and_select` (src/webex_reports.py lines 108-146), each
optional because the code reads them with `.get`.  The identifier field is
spelled `Id` in the API payload. -/
structure Template where
  Id : Option Int
  title : Option String
  service : Option String
  maxDays : Option Nat
deriving DecidableEq

/-- The configured allow-list of service names (src/webex_reports.py
line 40). -/
def SERVICES : List String := ["Webex Meetings"]

/-- Embedding of Python `str.strip()`: drop whitespace from both ends. -/
def strTrim (s : String) : String :=
  String.mk (((s.data.dropWhile Char.isWhitespace).reverse.dropWhile
    Char.isWhitespace).reverse)

/-- The value of a list of decimal digit characters. -/
def digitsToNat (cs : List Char) : Nat :=
  cs.foldl (fun acc c => acc * 10 + (c.toNat - 48)) 0

/-- Embedding of Python `int(...)` on a stripped string, for the plain
decimal forms the prompt sees: an optional minus sign followed by digits;
anything else raises `ValueError`, modelled as `none`. -/
def parseInt? (s : String) : Option Int :=
  match s.data with
  | [] => none
  | '-' :: rest =>
      if rest.isEmpty then none
      else if rest.all Char.isDigit then some (-(digitsToNat rest : Int)) else none
  | cs => if cs.all Char.isDigit then some (digitsToNat cs : Int) else none

/-- The filter on line 118: templates whose `service` field is in `SERVICES`
(a missing field is not in the list, as in Python `None in [...]`). -/
def filtered_templates (templates : List Template) : List Template :=
  templates.filter (fun t =>
    match t.service with
    | some s => SERVICES.contains s
    | none => false)

/-- The selection loop of `display_templates_and_select` (lines 133-146),
fed the successive strings the user enters.  Each entry is stripped and
parsed as an integer; a parse failure or an identifier not equal to the `Id`
of some filtered template reprompts; a valid identifier is returned.  `none`
models an input stream that ends with no valid selection made (the real loop
would still be waiting at the prompt, or the user interrupted). -/
def select_loop (filtered : List Template) : List String → Option Int
  | [] => none
  | s :: rest =>
      match parseInt? (strTrim s) with
      | some n =>
          if filtered.any (fun t => t.Id = some n) then some n
          else select_loop filtered rest
      | none => select_loop filtered rest

/-- Embedding of `display_templates_and_select` from src/webex_reports.py
lines 108-146: the list of templates actually displayed (the for-loop on
lines 124-130 prints exactly the filtered list) paired with the selection the
loop returns on the given input stream. -/
def display_templates_and_select (templates : List Template) (inputs : List String) :
    List Template × Option Int :=
  let filtered := filtered_templates templates
  (filtered, select_loop filtered inputs)

/-- The stage of `main` (src/webex_reports.py lines 371-376) that decides
between exiting cleanly and prompting: `noTemplatesExit` is the
`sys.exit(0)` after printing that no templates are available, `promptUser l`
is entering `display_templates_and_select`, which displays `l` and prompts. -/
inductive TemplateStage where
  | noTemplatesExit
  | promptUser (displayed : List Template)
deriving DecidableEq

/-- Embedding of lines 371-376 of `main`: the clean exit happens exactly when
the fetched (unfiltered) template list is empty; otherwise the selector is
entered and displays the filtered list. -/
def templates_stage (templates : List Template) : TemplateStage :=
  if templates.isEmpty then .noTemplatesExit
  else .promptUser (filtered_templates templates)

/-- A calendar date, as `datetime` holds it (the time-of-day part of
`datetime.now()` never influences `strftime("%Y-%m-%d")` or a whole-day
`timedelta` shift, so it is dropped). -/
structure Ymd where
  y : Nat
  m : Nat
  d : Nat
deriving DecidableEq

/-- The proleptic Gregorian leap rule used by `datetime`. -/
def isLeap (y : Nat) : Bool :=
  y % 4 = 0 && (y % 100 ≠ 0 || y % 400 = 0)

/-- Days in a month of the proleptic Gregorian calendar (months 1-12; other
arguments never arise in a valid date and get 0). -/
def daysInMonth (y m : Nat) : Nat :=
  match m with
  | 1 => 31
  | 2 => if isLeap y then 29 else 28
  | 3 => 31
  | 4 => 30
  | 5 => 31
  | 6 => 30
  | 7 => 31
  | 8 => 31
  | 9 => 30
  | 10 => 31
  | 11 => 30
  | 12 => 31
  | _ => 0

/-- A date `datetime` can represent: year at least 1 (the type's lower bound
is 0001-01-01) with month and day in range. -/
def validYmd (dt : Ymd) : Prop :=
  1 ≤ dt.y ∧ 1 ≤ dt.m ∧ dt.m ≤ 12 ∧ 1 ≤ dt.d ∧ dt.d ≤ daysInMonth dt.y dt.m

instance (dt : Ymd) : Decidable (validYmd dt) := by
  unfold validYmd; infer_instance

/-- One day earlier, as `datetime.__sub__` with a one-day `timedelta`
computes it; `none` models the `OverflowError` raised when the result would
fall before 0001-01-01, the lower bound of the type. -/
def predDayO (dt : Ymd) : Option Ymd :=
  if 1 < dt.d then some ⟨dt.y, dt.m, dt.d - 1⟩
  else if 1 < dt.m then some ⟨dt.y, dt.m - 1, daysInMonth dt.y (dt.m - 1)⟩
  else if 1 < dt.y then some ⟨dt.y - 1, 12, 31⟩
  else none

/-- Shifting a date back by a whole number of days: a `timedelta(days = n)`
subtraction is n single-day steps, overflowing as soon as any step would. -/
def subDaysO (dt : Ymd) : Nat → Option Ymd
  | 0 => some dt
  | n + 1 => (predDayO dt).bind (fun d => subDaysO d n)

/-- The next calendar day (the specification-side successor function used to
express that one date is a day before another). -/
def nextDay (dt : Ymd) : Ymd :=
  if dt.d < daysInMonth dt.y dt.m then ⟨dt.y, dt.m, dt.d + 1⟩
  else if dt.m < 12 then ⟨dt.y, dt.m + 1, 1⟩
  else ⟨dt.y + 1, 1, 1⟩

/-- n successive next calendar days. -/
def addDays (dt : Ymd) : Nat → Ymd
  | 0 => dt
  | n + 1 => addDays (nextDay dt) n

/-- The decimal digit character for n (n below 10). -/
def digitChar (n : Nat) : Char := Char.ofNat (48 + n)

/-- Two-digit zero-padded decimal, as `strftime` renders `%m` and `%d`. -/
def pad2 (n : Nat) : String :=
  String.mk [digitChar (n / 10 % 10), digitChar (n % 10)]

/-- Four-digit zero-padded decimal, as `strftime` renders `%Y` for years
1 to 9999 on the platforms `datetime` supports with zero padding; the
embedding is exact for years up to 9999, which is also the upper bound of
the `datetime` type. -/
def pad4 (n : Nat) : String :=
  String.mk [digitChar (n / 1000 % 10), digitChar (n / 100 % 10),
             digitChar (n / 10 % 10), digitChar (n % 10)]

/-- Embedding of `strftime("%Y-%m-%d")`. -/
def formatYmd (dt : Ymd) : String :=
  pad4 dt.y ++ "-" ++ pad2 dt.m ++ "-" ++ pad2 dt.d

/-- Recogniser for the YYYY-MM-DD shape: ten characters, digits everywhere
except dashes at positions 4 and 7. -/
def isYmdString (s : String) : Bool :=
  match s.toList with
  | [a, b, c, d, h1, e, f, h2, g, k] =>
      a.isDigit && b.isDigit && c.isDigit && d.isDigit && h1 = '-' &&
      e.isDigit && f.isDigit && h2 = '-' && g.isDigit && k.isDigit
  | _ => false

/-- Embedding of `calculate_date_range` from src/webex_reports.py lines
149-165, with the invocation date (`datetime.now()`) as an explicit
argument: the end date is one day before today, the start date is
`days_back` days before the end date, both rendered as `%Y-%m-%d`; `none`
models the `OverflowError` (propagating to the top-level handler) when the
subtraction leaves the representable range. -/
def calculate_date_range (today : Ymd) (days_back : Nat) : Option (String × String) :=
  (predDayO today).bind fun end_date =>
    (subDaysO end_date days_back).map fun start_date =>
      (formatYmd start_date, formatYmd end_date)

/-! ## Theorems -/

/-- C8: the authenticator either returns a non-empty bearer token or
terminates with exit status 1, making no further API calls; a non-2xx
response (400 and above raises) and a response lacking the access-token
field both take the exit path. -/
theorem C8_auth_token_or_exit (resp : HttpResponse) (laterCalls : List String) :
    ((∃ t, get_access_token resp = .token t ∧ t ≠ "") ∨
      (get_access_token resp = .exit 1 ∧ calls_after_auth resp laterCalls = [])) ∧
    (400 ≤ resp.status → get_access_token resp = .exit 1) ∧
    (dictGet resp.body "access_token" = none → get_access_token resp = .exit 1) := by
  refine ⟨?_, ?_, ?_⟩
  · by_cases hs : 400 ≤ resp.status
    · exact Or.inr ⟨by simp [get_access_token, hs], by simp [calls_after_auth, get_access_token, hs]⟩
    · cases htok : dictGet resp.body "access_token" with
      | none =>
          exact Or.inr ⟨by simp [get_access_token, hs, htok],
            by simp [calls_after_auth, get_access_token, hs, htok]⟩
      | some t =>
          by_cases ht : t = ""
          · exact Or.inr ⟨by simp [get_access_token, hs, htok, ht],
              by simp [calls_after_auth, get_access_token, hs, htok, ht]⟩
          · exact Or.inl ⟨t, by simp [get_access_token, hs, htok, ht], ht⟩
  · intro hs
    simp [get_access_token, hs]
  · intro htok
    by_cases hs : 400 ≤ resp.status <;> simp [get_access_token, hs, htok]

/-- C8 witness: an HTTP 400 token exchange exits with status 1 and the
script makes no further calls. -/
theorem C8_auth_token_or_exit_witness :
    get_access_token ⟨400, []⟩ = AuthResult.exit 1 ∧
    calls_after_auth ⟨400, []⟩ ["GET /v1/meetings"] = [] := by
  have h := (C8_auth_token_or_exit ⟨400, []⟩ ["GET /v1/meetings"]).2.1 (by decide)
  exact ⟨h, by rw [calls_after_auth, h]⟩

/-- C10: when the report-detail fetch succeeds (2xx) but the items list of
the body is empty or absent, get_report_details exits with status 1;
otherwise it returns exactly the first element of the list. -/
theorem C10_report_details_first_item (status : Nat) (items : Option (List Dict))
    (h2 : 200 ≤ status) (h3 : status < 300) :
    ((items = none ∨ items = some []) → get_report_details status items = .exit 1) ∧
    (∀ r rs, items = some (r :: rs) → get_report_details status items = .report r) := by
  have hs : ¬ 400 ≤ status := by omega
  constructor
  · rintro (rfl | rfl) <;> simp [get_report_details, hs]
  · rintro r rs rfl
    simp [get_report_details, hs]

/-- C10 witness: a 200 response with an empty items list exits with
status 1, and one with a singleton items list returns that item. -/
theorem C10_report_details_first_item_witness :
    get_report_details 200 (some []) = DetailsResult.exit 1 ∧
    get_report_details 200 (some [[("status", "done")]]) =
      DetailsResult.report [("status", "done")] := by
  refine ⟨(C10_report_details_first_item 200 (some []) (by omega) (by omega)).1 (Or.inr rfl),
    (C10_report_details_first_item 200 (some [[("status", "done")]])
      (by omega) (by omega)).2 _ _ rfl⟩

/-- C9: a fetch stub whose first call reports status done (case-insensitively)
makes the poll loop return that full report after exactly one fetch call and
zero sleeps. -/
theorem C9_poll_done_immediately (fetch : Nat → Dict) (poll_interval max_attempts : Nat)
    (hma : 0 < max_attempts)
    (hdone : strLower (dictGetD (fetch 1) "status" "") = "done") :
    poll_report_until_ready fetch poll_interval max_attempts = (.done (fetch 1), 1, 0) := by
  obtain ⟨r, rfl⟩ : ∃ r, max_attempts = r + 1 := ⟨max_attempts - 1, by omega⟩
  simp [poll_report_until_ready, pollGo, hdone]

/-- C9 witness: a stub answering DONE on the first call returns that report
with one call and no sleep under the default parameters. -/
theorem C9_poll_done_immediately_witness :
    poll_report_until_ready (fun _ => [("status", "DONE")]) 5 60 =
      (PollResult.done [("status", "DONE")], 1, 0) :=
  C9_poll_done_immediately (fun _ => [("status", "DONE")]) 5 60 (by omega)
    (show strLower (dictGetD [("status", "DONE")] "status" "") = "done" by decide)

/-- If no call in the window ever reports a terminal status, the poll loop
body runs its remaining iterations, making one fetch call and one sleep per
iteration, and falls through to the timeout exit. -/
theorem pollGo_never_terminal (fetch : Nat → Dict) (bound : Nat) :
    ∀ (remaining attempt : Nat),
      (∀ n, attempt < n → n ≤ attempt + remaining →
          strLower (dictGetD (fetch n) "status" "") ≠ "done" ∧
          strLower (dictGetD (fetch n) "status" "") ≠ "failed") →
      pollGo fetch bound attempt remaining = (.timeoutExit bound, remaining, remaining)
  | 0, _, _ => rfl
  | remaining + 1, attempt, h => by
      have h1 := h (attempt + 1) (by omega) (by omega)
      have ih := pollGo_never_terminal fetch bound remaining (attempt + 1)
        (fun n hn hn2 => h n (by omega) (by omega))
      simp only [pollGo, if_neg h1.1, if_neg h1.2, ih]

/-- C2: a details-fetch stub that never returns a terminal status makes the
poll loop perform exactly max_attempts fetch calls, then exit with the
timeout diagnostic naming max_attempts times poll_interval elapsed
seconds. -/
theorem C2_poll_timeout_exact (fetch : Nat → Dict) (poll_interval max_attempts : Nat)
    (h : ∀ n, 1 ≤ n → n ≤ max_attempts →
        strLower (dictGetD (fetch n) "status" "") ≠ "done" ∧
        strLower (dictGetD (fetch n) "status" "") ≠ "failed") :
    poll_report_until_ready fetch poll_interval max_attempts =
      (.timeoutExit (max_attempts * poll_interval), max_attempts, max_attempts) :=
  pollGo_never_terminal fetch (max_attempts * poll_interval) max_attempts 0
    (fun n hn hn2 => h n (by omega) (by omega))

/-- C2 witness: a stub stuck on a pending status under poll interval 5 and
3 attempts makes exactly 3 calls and times out naming 15 elapsed seconds. -/
theorem C2_poll_timeout_exact_witness :
    poll_report_until_ready (fun _ => [("status", "pending")]) 5 3 =
      (PollResult.timeoutExit 15, 3, 3) :=
  C2_poll_timeout_exact (fun _ => [("status", "pending")]) 5 3
    (fun n _ _ =>
      ⟨show strLower (dictGetD [("status", "pending")] "status" "") ≠ "done" by decide,
       show strLower (dictGetD [("status", "pending")] "status" "") ≠ "failed" by decide⟩)

/-- If no archive entry name ends in .csv, the namelist search finds
nothing. -/
theorem csvFind_none_of_filter_nil :
    ∀ entries : List ZipEntry,
      entries.filter (fun e => strEndsWith e.name ".csv") = [] →
      (entries.map (fun e => e.name)).find? (fun n => strEndsWith n ".csv") = none
  | [], _ => rfl
  | x :: xs, h => by
      cases hp : strEndsWith x.name ".csv" with
      | true => simp [List.filter_cons, hp] at h
      | false =>
          simp only [List.filter_cons, hp, Bool.false_eq_true, if_false] at h
          rw [List.map_cons]
          simp only [List.find?_cons, hp]
          exact csvFind_none_of_filter_nil xs h

/-- If exactly one archive entry name ends in .csv, the namelist search
finds exactly that name. -/
theorem csvFind_of_filter_singleton (e : ZipEntry) :
    ∀ entries : List ZipEntry,
      entries.filter (fun x => strEndsWith x.name ".csv") = [e] →
      (entries.map (fun x => x.name)).find? (fun n => strEndsWith n ".csv") = some e.name
  | [], h => by simp at h
  | x :: xs, h => by
      cases hp : strEndsWith x.name ".csv" with
      | true =>
          simp only [List.filter_cons, hp, if_true] at h
          simp only [List.cons.injEq] at h
          obtain ⟨rfl, -⟩ := h
          rw [List.map_cons]
          simp only [List.find?_cons, hp]
      | false =>
          simp only [List.filter_cons, hp, Bool.false_eq_true, if_false] at h
          rw [List.map_cons]
          simp only [List.find?_cons, hp]
          exact csvFind_of_filter_singleton e xs h

/-- A first-match search over a list that contains `e`, where every match is
equal to `e`, returns `e`. -/
theorem find?_eq_some_of_unique {α : Type} (r : α → Bool) (e : α) :
    ∀ l : List α, e ∈ l → r e = true → (∀ x ∈ l, r x = true → x = e) →
      l.find? r = some e
  | [], h, _, _ => absurd h (List.not_mem_nil e)
  | a :: l, h, hr, huniq => by
      cases ha : r a with
      | true =>
          simp only [List.find?_cons, ha]
          rw [huniq a (List.mem_cons_self a l) ha]
      | false =>
          simp only [List.find?_cons, ha]
          have he : e ∈ l := by
            rcases List.mem_cons.mp h with rfl | h2
            · rw [hr] at ha; exact absurd ha (by simp)
            · exact h2
          exact find?_eq_some_of_unique r e l he hr
            (fun x hx hrx => huniq x (List.mem_cons_of_mem _ hx) hrx)

/-- If exactly one archive entry name ends in .csv, reading that name out of
the archive yields exactly that entry's bytes. -/
theorem zipRead_of_filter_singleton (e : ZipEntry) (entries : List ZipEntry)
    (h : entries.filter (fun x => strEndsWith x.name ".csv") = [e]) :
    zipRead entries e.name = some e.data := by
  have hmem : e ∈ entries ∧ strEndsWith e.name ".csv" = true := by
    have : e ∈ entries.filter (fun x => strEndsWith x.name ".csv") := by rw [h]; simp
    simpa using List.mem_filter.mp this
  have hfind : entries.reverse.find? (fun x => x.name = e.name) = some e := by
    apply find?_eq_some_of_unique
    · exact List.mem_reverse.mpr hmem.1
    · simp
    · intro x hx hrx
      have hname : x.name = e.name := by simpa using hrx
      have hpx : strEndsWith x.name ".csv" = true := by rw [hname]; exact hmem.2
      have : x ∈ entries.filter (fun x => strEndsWith x.name ".csv") :=
        List.mem_filter.mpr ⟨List.mem_reverse.mp hx, hpx⟩
      rw [h] at this
      simpa using this
  simp [zipRead, hfind]

/-- C4: downloaded bytes that begin with the zip signature and parse to an
archive with exactly one entry named with suffix .csv produce an output file
whose contents are exactly that entry's uncompressed bytes. -/
theorem C4_zip_csv_roundtrip (content : List Nat) (entries : List ZipEntry)
    (e : ZipEntry) (output_filename : Option String) (timestamp : String)
    (hsig : content.take 4 = ZIP_SIG)
    (hone : entries.filter (fun x => strEndsWith x.name ".csv") = [e]) :
    download_report content (some entries) output_filename timestamp =
      .saved (output_filename.getD ("webex_report_" ++ timestamp ++ ".csv")) e.data := by
  have hfind := csvFind_of_filter_singleton e entries hone
  have hread := zipRead_of_filter_singleton e entries hone
  simp only [download_report, if_pos hsig, hfind, hread]

/-- C4 witness: a signed archive holding one .csv entry round-trips its bytes
into the generated filename. -/
theorem C4_zip_csv_roundtrip_witness :
    download_report [0x50, 0x4B, 0x03, 0x04, 7, 7]
        (some [⟨"meeting_report.csv", [10, 20, 30]⟩]) none "20260101_000000" =
      DownloadOutcome.saved "webex_report_20260101_000000.csv" [10, 20, 30] :=
  C4_zip_csv_roundtrip [0x50, 0x4B, 0x03, 0x04, 7, 7]
    [⟨"meeting_report.csv", [10, 20, 30]⟩] ⟨"meeting_report.csv", [10, 20, 30]⟩
    none "20260101_000000" (by decide) (by decide)

/-- C5: downloaded bytes that begin with the zip signature but whose archive
holds no entry ending in .csv make the script exit fatally, writing no
file. -/
theorem C5_zip_no_csv_fatal (content : List Nat) (entries : List ZipEntry)
    (output_filename : Option String) (timestamp : String)
    (hsig : content.take 4 = ZIP_SIG)
    (hnone : entries.filter (fun e => strEndsWith e.name ".csv") = []) :
    download_report content (some entries) output_filename timestamp =
        .fatal "ERROR: No CSV file found in ZIP archive" ∧
      ∀ f c, download_report content (some entries) output_filename timestamp ≠
        DownloadOutcome.saved f c := by
  have hfind := csvFind_none_of_filter_nil entries hnone
  have heq : download_report content (some entries) output_filename timestamp =
      .fatal "ERROR: No CSV file found in ZIP archive" := by
    simp only [download_report, if_pos hsig, hfind]
  exact ⟨heq, fun f c => by rw [heq]; simp⟩

/-- C5 witness: a signed archive with only a non-csv entry exits fatally. -/
theorem C5_zip_no_csv_fatal_witness :
    download_report [0x50, 0x4B, 0x03, 0x04] (some [⟨"readme.txt", [1]⟩]) none "T" =
      DownloadOutcome.fatal "ERROR: No CSV file found in ZIP archive" :=
  (C5_zip_no_csv_fatal [0x50, 0x4B, 0x03, 0x04] [⟨"readme.txt", [1]⟩] none "T"
    (by decide) (by decide)).1

/-- C6: downloaded bytes whose first four bytes are not the zip signature are
written verbatim to the output file. -/
theorem C6_nonzip_verbatim (content : List Nat) (archive : Option (List ZipEntry))
    (output_filename : Option String) (timestamp : String)
    (hsig : content.take 4 ≠ ZIP_SIG) :
    download_report content archive output_filename timestamp =
      .saved (output_filename.getD ("webex_report_" ++ timestamp ++ ".csv")) content := by
  simp only [download_report, if_neg hsig]

/-- C6 witness: three plain bytes are saved unchanged under the generated
filename. -/
theorem C6_nonzip_verbatim_witness :
    download_report [1, 2, 3] none none "20260101_000000" =
      DownloadOutcome.saved "webex_report_20260101_000000.csv" [1, 2, 3] :=
  C6_nonzip_verbatim [1, 2, 3] none none "20260101_000000" (by decide)

/-- The selection loop only ever returns the Id of a template in the list it
was given. -/
theorem select_loop_sound (filtered : List Template) :
    ∀ (inputs : List String) (n : Int), select_loop filtered inputs = some n →
      ∃ t ∈ filtered, t.Id = some n
  | [], _, h => by simp [select_loop] at h
  | s :: rest, n, h => by
      cases hparse : parseInt? (strTrim s) with
      | none =>
          simp only [select_loop, hparse] at h
          exact select_loop_sound filtered rest n h
      | some m =>
          simp only [select_loop, hparse] at h
          by_cases hany : filtered.any (fun t => t.Id = some m) = true
          · rw [if_pos hany] at h
            obtain ⟨t, ht, hid⟩ := List.any_eq_true.mp hany
            obtain rfl : m = n := by simpa using h
            exact ⟨t, ht, by simpa using hid⟩
          · rw [if_neg hany] at h
            exact select_loop_sound filtered rest n h

/-- C7: the selector displays only templates whose service is in the
configured allow-list; an entered identifier that parses but is not the Id
of a displayed template, or fails to parse, is rejected and the loop moves
to the next prompt; and every identifier the selector returns is the Id of a
template in the filtered set. -/
theorem C7_selector_filter_and_membership (templates : List Template) (inputs : List String) :
    (∀ t ∈ (display_templates_and_select templates inputs).1,
        ∃ s, t.service = some s ∧ s ∈ SERVICES) ∧
    (∀ s rest n, parseInt? (strTrim s) = some n →
        (filtered_templates templates).any (fun t => t.Id = some n) = false →
        select_loop (filtered_templates templates) (s :: rest) =
          select_loop (filtered_templates templates) rest) ∧
    (∀ s rest, parseInt? (strTrim s) = none →
        select_loop (filtered_templates templates) (s :: rest) =
          select_loop (filtered_templates templates) rest) ∧
    (∀ n, (display_templates_and_select templates inputs).2 = some n →
        ∃ t ∈ filtered_templates templates, t.Id = some n) := by
  refine ⟨?_, ?_, ?_, ?_⟩
  · intro t ht
    have ht2 : t ∈ filtered_templates templates := ht
    have := (List.mem_filter.mp ht2).2
    cases hs : t.service with
    | none => rw [hs] at this; simp at this
    | some s =>
        rw [hs] at this
        exact ⟨s, rfl, by simpa using this⟩
  · intro s rest n hparse hany
    simp only [select_loop, hparse, hany, Bool.false_eq_true, if_false]
  · intro s rest hparse
    simp only [select_loop, hparse]
  · exact select_loop_sound (filtered_templates templates) inputs

/-- C7 witness: with one allow-listed and one foreign template, entering the
foreign Id is rejected and the allow-listed Id is then accepted, so the
returned value is the Id of a filtered template. -/
theorem C7_selector_filter_and_membership_witness :
    ∃ t ∈ filtered_templates
        [⟨some 1, some "Usage", some "Webex Meetings", some 90⟩,
         ⟨some 2, some "Calls", some "Other", some 30⟩],
      t.Id = some 1 :=
  (C7_selector_filter_and_membership
      [⟨some 1, some "Usage", some "Webex Meetings", some 90⟩,
       ⟨some 2, some "Calls", some "Other", some 30⟩] ["2", "1"]).2.2.2 1 (by decide)

/-- C1 counterexample: a fetched list holding one template of a foreign
service filters to zero templates, yet the script does not take the clean
no-templates exit; it enters the selector, which prompts with an empty
displayed list. -/
theorem C1_counterexample :
    filtered_templates [⟨some 1, some "Calls", some "Other", some 30⟩] = [] ∧
    templates_stage [⟨some 1, some "Calls", some "Other", some 30⟩] ≠
      TemplateStage.noTemplatesExit ∧
    templates_stage [⟨some 1, some "Calls", some "Other", some 30⟩] =
      TemplateStage.promptUser [] := by
  refine ⟨by decide, by decide, by decide⟩

/-- C1 amended: the clean no-templates exit is decided on the unfiltered
fetched list; with a nonempty fetched list the selector is entered and
prompts, displaying the filtered list, and when that filtered list is empty
no input is ever accepted. -/
theorem C1_amended_exit_on_unfiltered (templates : List Template) (inputs : List String) :
    (templates = [] → templates_stage templates = .noTemplatesExit) ∧
    (templates ≠ [] →
      templates_stage templates = .promptUser (filtered_templates templates)) ∧
    (filtered_templates templates = [] →
      select_loop (filtered_templates templates) inputs = none) := by
  refine ⟨?_, ?_, ?_⟩
  · rintro rfl; rfl
  · intro h
    rw [templates_stage, if_neg (by simpa using h)]
  · intro h
    rw [h]
    induction inputs with
    | nil => rfl
    | cons s rest ih =>
        cases hparse : parseInt? (strTrim s) with
        | none => simp only [select_loop, hparse]; exact ih
        | some m => simp only [select_loop, hparse, List.any_nil, Bool.false_eq_true,
            if_false]; exact ih

/-- C1 amended witness: an empty fetched list takes the clean exit, and the
foreign-service singleton list reaches the prompt with nothing accepted. -/
theorem C1_amended_exit_on_unfiltered_witness :
    templates_stage ([] : List Template) = TemplateStage.noTemplatesExit ∧
    select_loop (filtered_templates [⟨some 1, some "Calls", some "Other", some 30⟩])
      ["1", "0"] = none := by
  refine ⟨(C1_amended_exit_on_unfiltered [] []).1 rfl,
    (C1_amended_exit_on_unfiltered [⟨some 1, some "Calls", some "Other", some 30⟩]
      ["1", "0"]).2.2 (by decide)⟩

/-- Every month of a year has between 28 and 31 days. -/
theorem daysInMonth_bounds (y m : Nat) (h1 : 1 ≤ m) (h12 : m ≤ 12) :
    28 ≤ daysInMonth y m ∧ daysInMonth y m ≤ 31 := by
  interval_cases m <;> cases hl : isLeap y <;> simp [daysInMonth, hl]

/-- December always has 31 days. -/
theorem daysInMonth_december (y : Nat) : daysInMonth y 12 = 31 := rfl

/-- A successful one-day subtraction yields a valid date whose next calendar
day is the original date, without increasing the year. -/
theorem predDayO_spec (dt d2 : Ymd) (hv : validYmd dt) (h : predDayO dt = some d2) :
    validYmd d2 ∧ nextDay d2 = dt ∧ d2.y ≤ dt.y := by
  obtain ⟨y, m, d⟩ := dt
  have hy : 1 ≤ y := hv.1
  have hm1 : 1 ≤ m := hv.2.1
  have hm12 : m ≤ 12 := hv.2.2.1
  have hd1 : 1 ≤ d := hv.2.2.2.1
  have hdm : d ≤ daysInMonth y m := hv.2.2.2.2
  rw [show predDayO ⟨y, m, d⟩ =
      (if 1 < d then some ⟨y, m, d - 1⟩
       else if 1 < m then some ⟨y, m - 1, daysInMonth y (m - 1)⟩
       else if 1 < y then some ⟨y - 1, 12, 31⟩
       else none) from rfl] at h
  by_cases hd : 1 < d
  · rw [if_pos hd] at h
    obtain rfl : (⟨y, m, d - 1⟩ : Ymd) = d2 := Option.some.inj h
    have hvd2 : validYmd (⟨y, m, d - 1⟩ : Ymd) := by
      show 1 ≤ y ∧ 1 ≤ m ∧ m ≤ 12 ∧ 1 ≤ d - 1 ∧ d - 1 ≤ daysInMonth y m
      exact ⟨hy, hm1, hm12, by omega, by omega⟩
    refine ⟨hvd2, ?_, show y ≤ y from le_refl y⟩
    show (if d - 1 < daysInMonth y m then (⟨y, m, d - 1 + 1⟩ : Ymd)
          else if m < 12 then ⟨y, m + 1, 1⟩ else ⟨y + 1, 1, 1⟩) = ⟨y, m, d⟩
    rw [if_pos (by omega), show d - 1 + 1 = d by omega]
  · rw [if_neg hd] at h
    by_cases hm : 1 < m
    · rw [if_pos hm] at h
      obtain rfl : (⟨y, m - 1, daysInMonth y (m - 1)⟩ : Ymd) = d2 := Option.some.inj h
      have hb := daysInMonth_bounds y (m - 1) (by omega) (by omega)
      have hvd2 : validYmd (⟨y, m - 1, daysInMonth y (m - 1)⟩ : Ymd) := by
        show 1 ≤ y ∧ 1 ≤ m - 1 ∧ m - 1 ≤ 12 ∧ 1 ≤ daysInMonth y (m - 1) ∧
          daysInMonth y (m - 1) ≤ daysInMonth y (m - 1)
        exact ⟨hy, by omega, by omega, by omega, le_refl _⟩
      refine ⟨hvd2, ?_, show y ≤ y from le_refl y⟩
      show (if daysInMonth y (m - 1) < daysInMonth y (m - 1) then
              (⟨y, m - 1, daysInMonth y (m - 1) + 1⟩ : Ymd)
            else if m - 1 < 12 then ⟨y, m - 1 + 1, 1⟩
            else ⟨y + 1, 1, 1⟩) = ⟨y, m, d⟩
      rw [if_neg (lt_irrefl _), if_pos (by omega),
        show m - 1 + 1 = m by omega, show (1 : Nat) = d by omega]
    · rw [if_neg hm] at h
      by_cases hyy : 1 < y
      · rw [if_pos hyy] at h
        obtain rfl : (⟨y - 1, 12, 31⟩ : Ymd) = d2 := Option.some.inj h
        have hvd2 : validYmd (⟨y - 1, 12, 31⟩ : Ymd) := by
          show 1 ≤ y - 1 ∧ 1 ≤ 12 ∧ 12 ≤ 12 ∧ 1 ≤ 31 ∧ 31 ≤ daysInMonth (y - 1) 12
          exact ⟨by omega, by omega, le_refl 12, by omega, by rw [daysInMonth_december]⟩
        refine ⟨hvd2, ?_, show y - 1 ≤ y by omega⟩
        show (if 31 < daysInMonth (y - 1) 12 then (⟨y - 1, 12, 31 + 1⟩ : Ymd)
              else if 12 < 12 then ⟨y - 1, 12 + 1, 1⟩
              else ⟨y - 1 + 1, 1, 1⟩) = ⟨y, m, d⟩
        rw [daysInMonth_december, if_neg (by omega), if_neg (by omega),
          show y - 1 + 1 = y by omega, show (1 : Nat) = m by omega]
        rw [show m = d by omega]
      · rw [if_neg hyy] at h
        exact Option.noConfusion h

/-- Stepping forward commutes with starting one day later. -/
theorem addDays_nextDay (dt : Ymd) : ∀ n, addDays (nextDay dt) n = nextDay (addDays dt n)
  | 0 => rfl
  | n + 1 => by
      show addDays (nextDay (nextDay dt)) n = nextDay (addDays (nextDay dt) n)
      exact addDays_nextDay (nextDay dt) n

/-- A successful n-day subtraction yields a valid date that is exactly n
successive calendar days before the original, without increasing the
year. -/
theorem subDaysO_spec :
    ∀ (n : Nat) (dt s : Ymd), validYmd dt → subDaysO dt n = some s →
      validYmd s ∧ addDays s n = dt ∧ s.y ≤ dt.y
  | 0, dt, s, hv, h => by
      obtain rfl : dt = s := Option.some.inj h
      exact ⟨hv, rfl, le_refl _⟩
  | n + 1, dt, s, hv, h => by
      simp only [subDaysO, Option.bind_eq_some] at h
      obtain ⟨d2, hpred, hsub⟩ := h
      obtain ⟨hv2, hnext, hy2⟩ := predDayO_spec dt d2 hv hpred
      obtain ⟨hvs, hadd, hys⟩ := subDaysO_spec n d2 s hv2 hsub
      refine ⟨hvs, ?_, by omega⟩
      show addDays (nextDay s) n = dt
      rw [addDays_nextDay, hadd, hnext]

/-- The digit characters produced by the zero-padded formatters are
digits. -/
theorem digitChar_mod_isDigit (n : Nat) : (digitChar (n % 10)).isDigit = true := by
  have h : ∀ k, k < 10 → (digitChar k).isDigit = true := by decide
  exact h (n % 10) (Nat.mod_lt n (by omega))

/-- Every formatted date has the YYYY-MM-DD shape: ten characters, digits
everywhere except dashes at positions 4 and 7. -/
theorem isYmdString_formatYmd (dt : Ymd) : isYmdString (formatYmd dt) = true := by
  show isYmdString (pad4 dt.y ++ "-" ++ pad2 dt.m ++ "-" ++ pad2 dt.d) = true
  have hdata : (pad4 dt.y ++ "-" ++ pad2 dt.m ++ "-" ++ pad2 dt.d).data =
      [digitChar (dt.y / 1000 % 10), digitChar (dt.y / 100 % 10),
       digitChar (dt.y / 10 % 10), digitChar (dt.y % 10), '-',
       digitChar (dt.m / 10 % 10), digitChar (dt.m % 10), '-',
       digitChar (dt.d / 10 % 10), digitChar (dt.d % 10)] := rfl
  unfold isYmdString
  rw [String.toList, hdata]
  simp [digitChar_mod_isDigit]

/-- C3 counterexample: invoked on 0001-01-01 (the lower bound of the
`datetime` type) with N = 0, the date-range calculation overflows the
calendar and returns no pair at all, so the claimed shape does not hold for
every invocation date. -/
theorem C3_counterexample : calculate_date_range ⟨1, 1, 1⟩ 0 = none := rfl

/-- C3 amended: whenever the computation stays inside the representable
calendar and returns a pair, the pair consists of YYYY-MM-DD strings naming
valid dates such that the end date is exactly one calendar day before the
invocation date and the start date is exactly N calendar days before the end
date. -/
theorem C3_amended_date_range (today : Ymd) (days_back : Nat) (sS sE : String)
    (hv : validYmd today)
    (h : calculate_date_range today days_back = some (sS, sE)) :
    ∃ s e : Ymd, sS = formatYmd s ∧ sE = formatYmd e ∧
      validYmd s ∧ validYmd e ∧
      nextDay e = today ∧ addDays s days_back = e ∧
      isYmdString sS = true ∧ isYmdString sE = true := by
  simp only [calculate_date_range, Option.bind_eq_some, Option.map_eq_some'] at h
  obtain ⟨e0, hpred, s0, hsub, hpair⟩ := h
  rw [Prod.mk.injEq] at hpair
  obtain ⟨hsS, hsE⟩ := hpair
  obtain ⟨hve, hnxt, -⟩ := predDayO_spec today e0 hv hpred
  obtain ⟨hvs, hadd, -⟩ := subDaysO_spec days_back e0 s0 hve hsub
  exact ⟨s0, e0, hsS.symm, hsE.symm, hvs, hve, hnxt, hadd,
    hsS ▸ isYmdString_formatYmd s0, hsE ▸ isYmdString_formatYmd e0⟩

/-- C3 amended witness: invoked on 2026-10-12 with N = 3, the calculator
returns the pair 2026-10-08 and 2026-10-11, which satisfies the amended
shape. -/
theorem C3_amended_date_range_witness :
    calculate_date_range ⟨2026, 10, 12⟩ 3 = some ("2026-10-08", "2026-10-11") ∧
    ∃ s e : Ymd, "2026-10-08" = formatYmd s ∧ "2026-10-11" = formatYmd e ∧
      validYmd s ∧ validYmd e ∧
      nextDay e = ⟨2026, 10, 12⟩ ∧ addDays s 3 = e ∧
      isYmdString "2026-10-08" = true ∧ isYmdString "2026-10-11" = true :=
  ⟨by decide,
    C3_amended_date_range ⟨2026, 10, 12⟩ 3 "2026-10-08" "2026-10-11"
      (by decide) (by decide)⟩

end Webex
